import Mathlib

/-!
Verification development for the sunu-sav payout core.

This file gives a shallow embedding, in Lean 4, of the parts of the code that
the specification's claims are about:

* `Fee`     — `backend/monetization/services/fee.py` (`calculate_fee_for_payout`);
* `Gateway` — `backend/app/routers/lightning_enhanced.py` (`pay_invoice` endpoint)
              over `backend/app/models/payment_attempt.py`;
* `Payout`  — `backend/monetization/services/payout.py` (`process_payout`);
* `Lnd`     — `backend/app/utils/lnd_client.py` (`LndClient.pay_invoice`);
* `Receipt` — `server/_core/security/receipt.py` (`make_receipt`, `verify_receipt`,
              `create_batch_receipt`, `verify_batch_receipt`), together with an
              executable model of HMAC-SHA-256 (`SHA`) so receipts are computed
              for real;
* `Race`    — a small-step interleaving model of two concurrent calls of the
              `Gateway.pay_invoice` endpoint under one idempotency key.

Python `Decimal` arithmetic with `ROUND_DOWN` is modelled by exact rational
arithmetic truncated toward zero (`Fee.truncQ`); machine integers do not
overflow in Python, so `ℤ`/`ℕ` are used directly.  Exceptions are modelled by
`Except`; the database rows touched by the endpoint are modelled as a map from
idempotency key to the `PaymentAttempt` row.
-/

set_option maxRecDepth 100000
set_option maxHeartbeats 4000000

namespace SunuSav

/-! ## SHA-256 and HMAC-SHA-256

Executable model of Python's `hashlib.sha256` / `hmac.new(·, ·, sha256)` as
used by `server/_core/security/receipt.py`.  Words are `Nat` reduced mod 2^32.
-/

namespace SHA

def w32 (n : Nat) : Nat := n % 4294967296
def rotr (x n : Nat) : Nat := w32 ((x >>> n) ||| (x <<< (32 - n)))
def bsig0 (x : Nat) : Nat := (rotr x 2) ^^^ (rotr x 13) ^^^ (rotr x 22)
def bsig1 (x : Nat) : Nat := (rotr x 6) ^^^ (rotr x 11) ^^^ (rotr x 25)
def ssig0 (x : Nat) : Nat := (rotr x 7) ^^^ (rotr x 18) ^^^ (x >>> 3)
def ssig1 (x : Nat) : Nat := (rotr x 17) ^^^ (rotr x 19) ^^^ (x >>> 10)
def ch (x y z : Nat) : Nat := (x &&& y) ^^^ ((x ^^^ 4294967295) &&& z)
def maj (x y z : Nat) : Nat := (x &&& y) ^^^ (x &&& z) ^^^ (y &&& z)

/-- The 64 SHA-256 round constants of FIPS 180-4, packed as one numeral with
round constant t in bits [32t, 32t+32). -/
def Kpack : Nat := 0xc67178f2bef9a3f7a4506ceb90befffa8cc7020884c8781478a5636f748f82ee682e6ff35b9cca4f4ed8aa4a391c0cb334b0bcb52748774c1e376c0819a4c116106aa070f40e3585d6990624d192e819c76c51a3c24b8b70a81a664ba2bfe8a192722c8581c2c92e766a0abb650a735453380d134d2c6dfc2e1b213827b70a851429296706ca6351d5a79147c6e00bf3bf597fc7b00327c8a831c66d983e515276f988da5cb0a9dc4a7484aa2de92c6f240ca1cc0fc19dc6efbe4786e49b69c1c19bf1749bdc06a780deb1fe72be5d74550c7dc3243185be12835b01d807aa98ab1c5ed5923f82a459f111f13956c25be9b5dba5b5c0fbcf71374491428a2f98

/-- The eight SHA-256 initial hash values of FIPS 180-4, packed as one
numeral with initial value i in bits [32i, 32i+32). -/
def H0pack : Nat := 0x5be0cd191f83d9ab9b05688c510e527fa54ff53a3c6ef372bb67ae856a09e667

def getWord (p i : Nat) : Nat := (p >>> (32 * i)) &&& 4294967295

def pack8 (a b c d e f g h : Nat) : Nat :=
  a ||| (b <<< 32) ||| (c <<< 64) ||| (d <<< 96) ||| (e <<< 128) |||
  (f <<< 160) ||| (g <<< 192) ||| (h <<< 224)

def packWordsFrom : List Nat → Nat → Nat
  | [], _ => 0
  | w :: ws, i => (w <<< (32 * i)) ||| packWordsFrom ws (i + 1)

def padMsg (msg : List Nat) : List Nat :=
  let len := msg.length
  let z := (64 - ((len + 9) % 64)) % 64
  msg ++ [0x80] ++ List.replicate z 0 ++
    (List.range 8).map (fun i => ((len * 8) >>> ((7 - i) * 8)) &&& 255)

def toBlocksPack (padded : List Nat) : List Nat :=
  (List.range (padded.length / 64)).map (fun b =>
    packWordsFrom ((List.range 16).map (fun w =>
      let i := b * 64 + w * 4
      (padded.getD i 0) <<< 24 ||| (padded.getD (i+1) 0) <<< 16 |||
      (padded.getD (i+2) 0) <<< 8 ||| (padded.getD (i+3) 0))) 0)


/-- A left fold over `Nat` that forces the accumulator to a numeral at each
step (the pattern match makes the kernel evaluate it), keeping kernel
reduction iterative. -/
def foldlNat (f : Nat → Nat → Nat) : List Nat → Nat → Nat
  | [], acc => acc
  | t :: ts, acc =>
    match f acc t with
    | 0 => foldlNat f ts 0
    | Nat.succ m => foldlNat f ts (m + 1)

def schedPack (blk : Nat) : Nat :=
  foldlNat
    (fun W t =>
      W ||| ((w32 (ssig1 (getWord W (t + 14)) + getWord W (t + 9) +
                   ssig0 (getWord W (t + 1)) + getWord W t)) <<< (32 * (t + 16))))
    (List.range 48) blk

def compress (Hp blk : Nat) : Nat :=
  let W := schedPack blk
  let st := foldlNat
    (fun s t =>
      let a := getWord s 0
      let b := getWord s 1
      let c := getWord s 2
      let d := getWord s 3
      let e := getWord s 4
      let f := getWord s 5
      let g := getWord s 6
      let h := getWord s 7
      let T1 := w32 (h + bsig1 e + ch e f g + getWord Kpack t + getWord W t)
      let T2 := w32 (bsig0 a + maj a b c)
      pack8 (w32 (T1 + T2)) a b c (w32 (d + T1)) e f g)
    (List.range 64) Hp
  pack8 (w32 (getWord Hp 0 + getWord st 0)) (w32 (getWord Hp 1 + getWord st 1))
    (w32 (getWord Hp 2 + getWord st 2)) (w32 (getWord Hp 3 + getWord st 3))
    (w32 (getWord Hp 4 + getWord st 4)) (w32 (getWord Hp 5 + getWord st 5))
    (w32 (getWord Hp 6 + getWord st 6)) (w32 (getWord Hp 7 + getWord st 7))

def sha256 (msg : List Nat) : List Nat :=
  let final := foldlNat compress (toBlocksPack (padMsg msg)) H0pack
  (List.range 8).flatMap (fun i =>
    [(getWord final i >>> 24) &&& 255, (getWord final i >>> 16) &&& 255,
     (getWord final i >>> 8) &&& 255, getWord final i &&& 255])

def hexDigit (n : Nat) : Char :=
  if n < 10 then Char.ofNat (48 + n) else Char.ofNat (87 + n)

def bytesToHex (bs : List Nat) : List Char :=
  bs.flatMap (fun b => [hexDigit (b >>> 4), hexDigit (b &&& 15)])

def utf8Char (c : Char) : List Nat :=
  let n := c.toNat
  if n < 0x80 then [n]
  else if n < 0x800 then [0xC0 ||| (n >>> 6), 0x80 ||| (n &&& 0x3F)]
  else if n < 0x10000 then
    [0xE0 ||| (n >>> 12), 0x80 ||| ((n >>> 6) &&& 0x3F), 0x80 ||| (n &&& 0x3F)]
  else
    [0xF0 ||| (n >>> 18), 0x80 ||| ((n >>> 12) &&& 0x3F),
     0x80 ||| ((n >>> 6) &&& 0x3F), 0x80 ||| (n &&& 0x3F)]

def utf8 (s : List Char) : List Nat := s.flatMap utf8Char

def hmacSha256 (key msg : List Nat) : List Nat :=
  let k1 := if key.length > 64 then sha256 key else key
  let k2 := k1 ++ List.replicate (64 - k1.length) 0
  let ipad := k2.map (fun b => b ^^^ 0x36)
  let opad := k2.map (fun b => b ^^^ 0x5c)
  sha256 (opad ++ sha256 (ipad ++ msg))

end SHA

/-! ## Fee calculator

Embedding of `backend/monetization/services/fee.py`.  The Python code works on
`Decimal` with `quantize(Decimal('1.'), rounding=ROUND_DOWN)`, i.e. exact
decimal arithmetic truncated toward zero; we model it by `ℚ` and `truncQ`.
-/

namespace Fee

/-- Truncation of a rational toward zero: the model of
`Decimal.quantize(Decimal('1.'), rounding=ROUND_DOWN)` (`sats_from_decimal`). -/
def truncQ (q : ℚ) : ℤ := if 0 ≤ q then ⌊q⌋ else -⌊-q⌋

def BASE_FEE_PERCENT : ℚ := 1 / 100

def VERIFIED_GROUP_DISCOUNT : ℚ := 50 / 100

def RECURRING_USER_DISCOUNT : ℚ := 75 / 100

def COMMUNITY_FUND_SHARE : ℚ := 20 / 100

def PARTNER_CASHOUT_SHARE : ℚ := 30 / 100

def MINIMUM_FEE_SATS : ℤ := 1

/-- The return value of `calculate_fee_for_payout` (its dict of sats values,
plus the effective fee percentage it reports). -/
structure FeeSplit where
  sats_fee : ℤ
  platform_share : ℤ
  community_share : ℤ
  partner_reserved : ℤ
  fee_percentage : ℚ
deriving Repr, DecidableEq

/-- The effective fee percent: override (if given) or base percent, then the
verified-group and recurring-user discounts applied multiplicatively in that
order. -/
def effectivePercent (group_verified user_recurring : Bool)
    (fee_percent_override : Option ℚ) : ℚ :=
  let p0 := fee_percent_override.getD BASE_FEE_PERCENT
  let p1 := if group_verified then p0 * VERIFIED_GROUP_DISCOUNT else p0
  if user_recurring then p1 * RECURRING_USER_DISCOUNT else p1

/-- `calculate_fee_for_payout` from `fee.py`: raises `ValueError` on a
non-positive payout, truncates `payout * percent` toward zero, clamps up to the
minimum fee, then splits (platform and community truncated, partner = rest,
each clamped to ≥ 0). -/
def calculate_fee_for_payout (payout_sats : ℤ) (group_verified : Bool)
    (user_recurring : Bool) (fee_percent_override : Option ℚ) :
    Except String FeeSplit :=
  if payout_sats ≤ 0 then .error "Payout amount must be positive"
  else
    let fee_pct := effectivePercent group_verified user_recurring fee_percent_override
    let computed := truncQ ((payout_sats : ℚ) * fee_pct)
    let sats_fee := if computed < MINIMUM_FEE_SATS then MINIMUM_FEE_SATS else computed
    let platform0 := truncQ ((sats_fee : ℚ) * (1 - COMMUNITY_FUND_SHARE - PARTNER_CASHOUT_SHARE))
    let community0 := truncQ ((sats_fee : ℚ) * COMMUNITY_FUND_SHARE)
    let partner0 := sats_fee - platform0 - community0
    .ok { sats_fee := sats_fee
          platform_share := max platform0 0
          community_share := max community0 0
          partner_reserved := max partner0 0
          fee_percentage := fee_pct }

end Fee

/-! ## Idempotent payment-submission endpoint

Embedding of the `/pay` route of `backend/app/routers/lightning_enhanced.py`
(`pay_invoice`) over the `PaymentAttempt` model of
`backend/app/models/payment_attempt.py`.  The database is modelled as a map
from idempotency key (the primary key `id`) to the `PaymentAttempt` row; the
external LND call is modelled by an `LndOutcome` oracle saying what
`lnd.pay_invoice` does when invoked.  `CallResult.commits` records the
sequence of `status` values committed for this key, in order, and
`CallResult.contacted` whether the external network call was made.
-/

namespace Gateway

inductive PayStatus
  | pending
  | success
  | failed
deriving DecidableEq, Repr

/-- A row of the `payment_attempts` table (timestamps omitted). -/
structure PaymentAttempt where
  invoice : String
  status : PayStatus
  preimage : Option String
  fee_sat : Option ℤ
  error_message : Option String
deriving DecidableEq, Repr

/-- The `payment_attempts` table, keyed by idempotency key. -/
def Db : Type := String → Option PaymentAttempt

def Db.update (db : Db) (key : String) (a : PaymentAttempt) : Db :=
  fun k => if k = key then some a else db k

/-- The dict returned by `LndClient.pay_invoice` when it does not raise. -/
structure LndPayResult where
  success : Bool
  preimage : Option String
  fee_sat : Option ℤ
  error : Option String
deriving DecidableEq, Repr

/-- What the external call does when invoked: returns a result dict, raises
`LndClientError`, or raises some other exception. -/
inductive LndOutcome
  | res (r : LndPayResult)
  | clientError (msg : String)
  | otherError (msg : String)
deriving DecidableEq, Repr

/-- The HTTP response of the `/pay` endpoint.  `success` carries the preimage,
the fee and the `cached` flag (`cached := true` only on the idempotent
short-circuit).  There is no 400 response: the `HTTPException(400)` the code
raises on an application-level decline is raised inside the `try` block, so
the generic `except Exception` handler catches it and answers 500. -/
inductive PayResponse
  | success (preimage : Option String) (fee_sat : Option ℤ) (cached : Bool)
  | conflict (detail : String)
  | lndError (detail : String)
  | internalError
deriving DecidableEq, Repr

structure CallResult where
  db : Db
  resp : PayResponse
  contacted : Bool
  commits : List PayStatus

/-- `invoice_raw.split(":", 1)[1]` after the `lightning:` check
(`"lightning:"` has 10 characters). -/
def stripLightning (s : String) : String :=
  if s.startsWith "lightning:" then s.drop 10 else s

/-- The pending row committed before the network call: a fresh row for a new
key, or the prior (failed) row refreshed to pending with the new invoice. -/
def pendingOf (invoice : String) (prior : Option PaymentAttempt) : PaymentAttempt :=
  match prior with
  | some a => { a with status := .pending, invoice := invoice }
  | none => { invoice := invoice, status := .pending, preimage := none,
              fee_sat := none, error_message := none }

/-- How the row ends up once the call returns (lines 106-114 and the two
except-blocks of the route).  On an application-level decline the row is
first committed with `error_message := res.error`, but the
`HTTPException(400)` then raised inside the `try` block is caught by
`except Exception`, which overwrites `error_message` with the stringified
exception (Starlette renders it as `"400: <detail>"`) and commits again;
only that final row survives. -/
def finalAttempt (pend : PaymentAttempt) (out : LndOutcome) : PaymentAttempt :=
  match out with
  | .res r =>
    if r.success then
      { pend with status := .success, preimage := r.preimage,
                  fee_sat := r.fee_sat, error_message := none }
    else
      { pend with status := .failed,
                  error_message :=
                    some ("400: Payment failed: " ++ r.error.getD "payment_failed") }
  | .clientError m => { pend with status := .failed, error_message := some m }
  | .otherError m => { pend with status := .failed, error_message := some m }

/-- The HTTP response for an admitted call.  A fresh success returns 200; an
application-level decline raises `HTTPException(400)` inside the `try` block,
which `except Exception` swallows into a 500; `LndClientError` answers 502;
any other exception answers 500. -/
def finalResp (out : LndOutcome) : PayResponse :=
  match out with
  | .res r =>
    if r.success then .success r.preimage r.fee_sat false
    else .internalError
  | .clientError m => .lndError ("LND error: " ++ m)
  | .otherError _ => .internalError

/-- The admitted path: commit the pending row, invoke LND, commit the
outcome, and answer.  On an application-level decline the row is committed
twice more (once by the normal path, once by the exception handler that
catches the in-`try` `HTTPException(400)`), both times with status failed. -/
def runLnd (invoice key : String) (prior : Option PaymentAttempt) (db : Db)
    (out : LndOutcome) : CallResult :=
  let pend := pendingOf invoice prior
  let fin := finalAttempt pend out
  { db := Db.update (Db.update db key pend) key fin
    resp := finalResp out
    contacted := true
    commits :=
      match out with
      | .res r => if r.success then [.pending, .success] else [.pending, .failed, .failed]
      | _ => [.pending, fin.status] }

/-- The `/pay` endpoint `pay_invoice`: idempotent short-circuit on a success
row, 409 on a pending row, admission (with retry) otherwise. -/
def pay_invoice (invoiceIn key : String) (db : Db) (out : LndOutcome) : CallResult :=
  let invoice := stripLightning invoiceIn.trim
  match db key with
  | some a =>
    if a.status = .success then
      { db := db, resp := .success a.preimage a.fee_sat true,
        contacted := false, commits := [] }
    else if a.status = .pending then
      { db := db, resp := .conflict "Payment already in progress",
        contacted := false, commits := [] }
    else
      runLnd invoice key (some a) db out
  | none => runLnd invoice key none db out

/-- The status transitions the spec allows for a `PaymentAttempt`. -/
def allowedTrans : PayStatus → PayStatus → Bool
  | .pending, .success => true
  | .pending, .failed => true
  | .failed, .pending => true
  | _, _ => false

/-- All consecutive status changes of a commit sequence (starting from the
status the row had before the call, if it existed) are allowed transitions;
a commit that rewrites the status the row already has (the code double-commits
failed on the application-decline path) changes nothing and is not a
transition. -/
def chainOk : Option PayStatus → List PayStatus → Bool
  | _, [] => true
  | none, c :: rest => chainOk (some c) rest
  | some p, c :: rest => (p = c || allowedTrans p c) && chainOk (some c) rest

/-- One logical call of the payment-submission endpoint. -/
structure Call where
  invoice : String
  key : String
  outcome : LndOutcome

/-- A sequence of endpoint calls, applied to the database in order. -/
def runCalls (calls : List Call) (db : Db) : Db :=
  calls.foldl (fun d c => (pay_invoice c.invoice c.key d c.outcome).db) db

end Gateway

/-! ## Payout state machine

Embedding of `process_payout` from `backend/monetization/services/payout.py`.
The cycle row, the presence of contribution transactions, and the behaviour of
`lnd_client.send_payment` are passed in explicitly; the exchange-rate fetch and
the hash publication are pure record-keeping and are omitted from the state we
track.  `ProcessResult` captures the committed cycle status, the `PayoutLog`
status, whether a `FeeRecord` and a `PartnerSettlement` were written, and the
returned summary (or the re-raised exception).
-/

namespace Payout

inductive CycleStatus
  | collecting
  | ready
  | paid
  | failed
deriving DecidableEq, Repr

/-- The `TontineCycle` row (the fields `process_payout` reads and writes). -/
structure TontineCycle where
  payout_total_sats : ℤ
  status : CycleStatus
  withdraw_invoice : Option String
deriving DecidableEq, Repr

/-- What `lnd_client.send_payment` does when invoked. -/
inductive SendOutcome
  | ok (payment_hash preimage : String)
  | raise (msg : String)
deriving DecidableEq, Repr

inductive PayoutLogStatus
  | initiated
  | completed
  | failed
deriving DecidableEq, Repr

/-- The dict returned by `process_payout` on success. -/
structure PaySummary where
  payout_total : ℤ
  sats_fee : ℤ
  net_payout : ℤ
  platform_share : ℤ
  community_share : ℤ
  partner_reserved : ℤ
  payment_hash : String
  preimage : String
deriving DecidableEq, Repr

structure ProcessResult where
  cycle : TontineCycle
  log : Option PayoutLogStatus
  feeRecordCreated : Bool
  partnerSettlementCreated : Bool
  outcome : Except String PaySummary
deriving Repr

/-- `process_payout(db, cycle_id, lnd_client, ...)`.  The checks before the
`try` block leave the cycle untouched; inside the `try` block any exception
(including a missing withdraw invoice and a transport error from
`send_payment`) marks the payout log and the cycle `failed`, commits, and
re-raises. -/
def process_payout (cycle : TontineCycle) (hasTransactions : Bool)
    (group_verified user_recurring : Bool) (send : SendOutcome) : ProcessResult :=
  if cycle.status ≠ .ready then
    { cycle := cycle, log := none, feeRecordCreated := false,
      partnerSettlementCreated := false,
      outcome := .error "Cycle is not ready for payout" }
  else if hasTransactions = false then
    { cycle := cycle, log := none, feeRecordCreated := false,
      partnerSettlementCreated := false,
      outcome := .error "No transactions found for cycle" }
  else
    match Fee.calculate_fee_for_payout cycle.payout_total_sats
        group_verified user_recurring none with
    | .error m =>
      { cycle := cycle, log := none, feeRecordCreated := false,
        partnerSettlementCreated := false, outcome := .error m }
    | .ok fs =>
      if cycle.payout_total_sats - fs.sats_fee ≤ 0 then
        { cycle := cycle, log := none, feeRecordCreated := false,
          partnerSettlementCreated := false,
          outcome := .error "Net payout is non-positive" }
      else
        match cycle.withdraw_invoice with
        | none =>
          { cycle := { cycle with status := .failed }, log := some .failed,
            feeRecordCreated := false, partnerSettlementCreated := false,
            outcome := .error "Winner has not provided withdraw invoice" }
        | some _ =>
          match send with
          | .ok ph pre =>
            { cycle := { cycle with status := .paid }, log := some .completed,
              feeRecordCreated := true,
              partnerSettlementCreated := decide (0 < fs.partner_reserved),
              outcome := .ok
                { payout_total := cycle.payout_total_sats
                  sats_fee := fs.sats_fee
                  net_payout := cycle.payout_total_sats - fs.sats_fee
                  platform_share := fs.platform_share
                  community_share := fs.community_share
                  partner_reserved := fs.partner_reserved
                  payment_hash := ph
                  preimage := pre } }
          | .raise m =>
            { cycle := { cycle with status := .failed }, log := some .failed,
              feeRecordCreated := false, partnerSettlementCreated := false,
              outcome := .error m }

end Payout

/-! ## LND REST client

Embedding of `LndClient.pay_invoice` from `backend/app/utils/lnd_client.py`:
the normalization of the streamed response of `send_payment_v2` into one
result dict, or a raised `LndClientError` (modelled by `Except.error`; every
raise path of the function surfaces as `LndClientError`, the generic
except-block re-wraps).  The HTTP layer is the input: a transport error, or a
status code with a body and the sequence of body chunks, each chunk either a
parsed JSON event or not JSON (skipped by the loop).
-/

namespace Lnd

/-- The `failure` object of an event (the fields the code reads). -/
structure FailureObj where
  reason : Option String
  message : Option String
deriving DecidableEq, Repr

/-- One streamed status event (the keys the code reads).  A key that is
absent from the JSON object is `none`. -/
structure Ev where
  status : Option String
  preimage : Option String
  payment_preimage : Option String
  fee_msat : Option ℤ
  fee_msat_paid : Option ℤ
  failure : Option FailureObj
  error : Option String
deriving DecidableEq, Repr

/-- Python truthiness of an optional string (`if ev.get(k):`). -/
def truthy : Option String → Bool
  | some s => !s.isEmpty
  | none => false

/-- A terminal event: the loop breaks on `FAILED` or `SUCCEEDED`. -/
def isTerminal (e : Ev) : Bool :=
  decide (e.status = some "FAILED" ∨ e.status = some "SUCCEEDED")

/-- The event loop: keep the last parsed event, stop at a terminal one;
non-JSON chunks (`none`) are skipped. -/
def scanEvents : List (Option Ev) → Option Ev → Option Ev
  | [], acc => acc
  | none :: rest, acc => scanEvents rest acc
  | some ev :: rest, _acc =>
    if isTerminal ev then some ev else scanEvents rest (some ev)

/-- `all(c in "0123456789abcdefABCDEF" for c in pre)`. -/
def isHexStr (s : String) : Bool :=
  s.data.all (fun c => "0123456789abcdefABCDEF".data.contains c)

def b64Val (c : Char) : Option Nat :=
  if 'A' ≤ c ∧ c ≤ 'Z' then some (c.toNat - 65)
  else if 'a' ≤ c ∧ c ≤ 'z' then some (c.toNat - 71)
  else if '0' ≤ c ∧ c ≤ '9' then some (c.toNat - 48 + 52)
  else if c = '+' then some 62
  else if c = '/' then some 63
  else none

/-- Model of `base64.b64decode` (strict alphabet, `=` padding only at the
end, length a multiple of 4); `none` models the raised `binascii.Error`. -/
def b64decode (s : String) : Option (List Nat) :=
  let cs := s.data
  if cs.length % 4 ≠ 0 then none
  else
    let body := cs.takeWhile (fun c => c ≠ '=')
    if cs.length - body.length > 2 then none
    else if ¬ (cs.drop body.length).all (fun c => c = '=') then none
    else
      match body.mapM b64Val with
      | none => none
      | some vals =>
        let n := vals.foldl (fun acc v => acc * 64 + v) 0
        let totalBits := vals.length * 6
        let nb := totalBits / 8
        let m := n >>> (totalBits % 8)
        some ((List.range nb).map (fun i => (m >>> ((nb - 1 - i) * 8)) &&& 255))

/-- `base64.b16encode(base64.b64decode(pre)).decode().lower()` with the
fallback `str(pre)` when decoding raises. -/
def normalizePreimage (pre : String) : String :=
  if isHexStr pre then pre
  else
    match b64decode pre with
    | some bs => ⟨SHA.bytesToHex bs⟩
    | none => pre

/-- Model of Python `str(ev)` where `ev` is the event dict (used only as an
opaque human-readable error fallback). -/
def evStr (e : Ev) : String := "event:" ++ e.status.getD "none"

/-- Model of Python `str(err)` where `err` is the failure dict. -/
def failureStr (f : FailureObj) : String :=
  "failure:" ++ f.reason.getD "" ++ ":" ++ f.message.getD ""

/-- `err.get("reason") or err.get("message") or str(err)` for a failure
dict. -/
def failureReason (f : FailureObj) : String :=
  if truthy f.reason then f.reason.getD ""
  else if truthy f.message then f.message.getD ""
  else failureStr f

/-- `err = ev.get("failure", ev.get("error", ev))`, then reason extraction;
when both keys are absent the event itself is stringified. -/
def extractReason (e : Ev) : String :=
  match e.failure with
  | some f => failureReason f
  | none =>
    match e.error with
    | some s => s
    | none => evStr e

/-- The input to one `pay_invoice` call: what the HTTP layer produced. -/
inductive HttpResponse
  | transportError (msg : String)
  | resp (status_code : ℕ) (body : String) (chunks : List (Option Ev))

/-- `LndClient.pay_invoice`: non-200 and transport errors raise
`LndClientError`; an empty event stream raises `LndClientError`
("No response events"); otherwise the final event is interpreted. -/
def pay_invoice : HttpResponse → Except String Gateway.LndPayResult
  | .transportError msg => .error ("HTTP error to LND REST: " ++ msg)
  | .resp code body chunks =>
    if code ≠ 200 then
      .error ("LND REST returned status " ++ toString code ++ ": " ++ body)
    else
      match scanEvents chunks none with
      | none => .error "No response events from LND router"
      | some ev =>
        if ev.status = some "SUCCEEDED" ∨
            (ev.failure = none ∧
              (truthy ev.preimage = true ∨ truthy ev.payment_preimage = true)) then
          let preimage_hex :=
            if truthy ev.preimage then some (normalizePreimage (ev.preimage.getD ""))
            else if truthy ev.payment_preimage then ev.payment_preimage
            else none
          let fm :=
            match ev.fee_msat with
            | some v => some v
            | none => ev.fee_msat_paid
          .ok { success := true, preimage := preimage_hex,
                fee_sat := fm.map (fun v => Int.tdiv v 1000), error := none }
        else
          .ok { success := false, preimage := none, fee_sat := none,
                error := some (extractReason ev) }

/-- A bare IN_FLIGHT event (no preimage, no failure object). -/
def sampleInFlight : Ev :=
  { status := some "IN_FLIGHT", preimage := none, payment_preimage := none,
    fee_msat := none, fee_msat_paid := none, failure := none, error := none }

end Lnd


/-! ## Interleaved concurrent calls of the endpoint

A small-step model of two concurrent `/pay` requests under one idempotency
key, faithful to the statement order of `pay_invoice` in
`lightning_enhanced.py`: (1) read the existing row and decide admission,
(2) commit the pending row (an INSERT of a fresh row hits the primary-key
constraint if another request inserted it meanwhile - an uncaught
`IntegrityError`, i.e. HTTP 500; an UPDATE of a pre-existing row overwrites),
(3) call LND, (4) commit the final row.  The store is the row for the one
contested key; a schedule interleaves the two processes.
-/

namespace Race

inductive PC
  | admission
  | commitPending
  | callNet
  | commitFinal
  | done
deriving DecidableEq, Repr

structure Proc where
  invoice : String
  outcome : Gateway.LndOutcome
  pc : PC
  snap : Option Gateway.PaymentAttempt
  contacted : Bool
  resp : Option Gateway.PayResponse
deriving DecidableEq, Repr

/-- The `payment_attempts` row for the contested key. -/
abbrev Store : Type := Option Gateway.PaymentAttempt

/-- One statement-level step of one request. -/
def step (g : Store) (p : Proc) : Store × Proc :=
  match p.pc with
  | .admission =>
    match g with
    | some a =>
      if a.status = .success then
        (g, { p with pc := .done,
                     resp := some (.success a.preimage a.fee_sat true) })
      else if a.status = .pending then
        (g, { p with pc := .done,
                     resp := some (.conflict "Payment already in progress") })
      else
        (g, { p with pc := .commitPending, snap := g })
    | none => (g, { p with pc := .commitPending, snap := none })
  | .commitPending =>
    match p.snap with
    | some a =>
      (some { a with status := .pending, invoice := p.invoice },
       { p with pc := .callNet })
    | none =>
      match g with
      | some _ => (g, { p with pc := .done, resp := some .internalError })
      | none =>
        (some { invoice := p.invoice, status := .pending, preimage := none,
                fee_sat := none, error_message := none },
         { p with pc := .callNet })
  | .callNet => (g, { p with contacted := true, pc := .commitFinal })
  | .commitFinal =>
    (some (Gateway.finalAttempt (Gateway.pendingOf p.invoice p.snap) p.outcome),
     { p with pc := .done, resp := some (Gateway.finalResp p.outcome) })
  | .done => (g, p)

structure Sys where
  store : Store
  procA : Proc
  procB : Proc
deriving DecidableEq, Repr

/-- Step one of the two processes (`false` = A, `true` = B). -/
def stepSys (s : Sys) (who : Bool) : Sys :=
  if who then
    { s with store := (step s.store s.procB).1, procB := (step s.store s.procB).2 }
  else
    { s with store := (step s.store s.procA).1, procA := (step s.store s.procA).2 }

/-- Run a schedule of interleaved steps. -/
def runSched (sched : List Bool) (s : Sys) : Sys :=
  sched.foldl stepSys s

/-- A request that has just arrived. -/
def initProc (invoice : String) (out : Gateway.LndOutcome) : Proc :=
  { invoice := invoice, outcome := out, pc := .admission, snap := none,
    contacted := false, resp := none }

end Race

/-! ## Signed receipts

Embedding of `server/_core/security/receipt.py`.  Strings are modelled as
`List Char` (`Chars`); payloads as a JSON value type; `get_secret` as a map
from secret name to the optional secret (`none` models both an absent secret
and a raised lookup error - either way the surrounding code treats it as
"no usable key").  Canonical serialization models
`json.dumps(payload, sort_keys=True, separators=(",", ":"))` with its default
`ensure_ascii` escaping (astral-plane code points, which Python renders as
surrogate pairs, are outside the model).  The HMAC is the real HMAC-SHA-256
of the `SHA` namespace.
-/

namespace Receipt

abbrev Chars := List Char

mutual
inductive Json
  | null
  | bool (b : Bool)
  | num (n : ℤ)
  | str (s : Chars)
  | arr (xs : JsonList)
  | obj (fs : JsonFields)
deriving DecidableEq, Repr
inductive JsonList
  | nil
  | cons (hd : Json) (tl : JsonList)
deriving DecidableEq, Repr
inductive JsonFields
  | nil
  | cons (key : Chars) (val : Json) (tl : JsonFields)
deriving DecidableEq, Repr
end

def jlistLength : JsonList → Nat
  | .nil => 0
  | .cons _ tl => jlistLength tl + 1

/-- Lexicographic comparison of strings by code point (Python `<`). -/
def ltChars : Chars → Chars → Bool
  | [], [] => false
  | [], _ :: _ => true
  | _ :: _, [] => false
  | a :: as, b :: bs => if a < b then true else if b < a then false else ltChars as bs

def insertByKey (p : Chars × Chars) : List (Chars × Chars) → List (Chars × Chars)
  | [] => [p]
  | q :: rest => if ltChars q.1 p.1 then q :: insertByKey p rest else p :: q :: rest

/-- Sort rendered fields by key (`sort_keys=True`). -/
def sortByKey : List (Chars × Chars) → List (Chars × Chars)
  | [] => []
  | p :: rest => insertByKey p (sortByKey rest)

def uEscape (n : Nat) : Chars :=
  ['\\', 'u', SHA.hexDigit ((n >>> 12) &&& 15), SHA.hexDigit ((n >>> 8) &&& 15),
   SHA.hexDigit ((n >>> 4) &&& 15), SHA.hexDigit (n &&& 15)]

/-- JSON string escaping as `json.dumps` does with `ensure_ascii=True`
(basic multilingual plane). -/
def escChar (c : Char) : Chars :=
  if c = '"' then ['\\', '"']
  else if c = '\\' then ['\\', '\\']
  else if c = '\n' then ['\\', 'n']
  else if c = '\t' then ['\\', 't']
  else if c = '\r' then ['\\', 'r']
  else if c.toNat = 8 then ['\\', 'b']
  else if c.toNat = 12 then ['\\', 'f']
  else if c.toNat < 32 ∨ 127 ≤ c.toNat then uEscape c.toNat
  else [c]

def escapeChars (s : Chars) : Chars := s.flatMap escChar

def strLit (s : Chars) : Chars := '"' :: escapeChars s ++ ['"']

def natChars (n : Nat) : Chars := Nat.toDigits 10 n

def intChars (n : ℤ) : Chars := if n < 0 then '-' :: natChars n.natAbs else natChars n.natAbs

def commaJoin : List Chars → Chars
  | [] => []
  | [x] => x
  | x :: y :: rest => x ++ ',' :: commaJoin (y :: rest)

mutual
/-- `json.dumps(., sort_keys=True, separators=(",", ":"))` on a value. -/
def serialize : Json → Chars
  | .null => "null".data
  | .bool b => if b then "true".data else "false".data
  | .num n => intChars n
  | .str s => strLit s
  | .arr xs => '[' :: commaJoin (serializeList xs) ++ [']']
  | .obj fs =>
    '\x7b' :: commaJoin ((sortByKey (serializeFields fs)).map (fun q => q.2)) ++ ['\x7d']
def serializeList : JsonList → List Chars
  | .nil => []
  | .cons x tl => serialize x :: serializeList tl
/-- Rendered `key:value` pairs, tagged with their key for sorting. -/
def serializeFields : JsonFields → List (Chars × Chars)
  | .nil => []
  | .cons k v tl => (k, strLit k ++ ':' :: serialize v) :: serializeFields tl
end

/-- `_canonicalize_payload`: canonical JSON, UTF-8 encoded. -/
def _canonicalize_payload (payload : Json) : List Nat := SHA.utf8 (serialize payload)

/-- `_hmac_sign`: hex HMAC-SHA-256 with the UTF-8 secret as key. -/
def _hmac_sign (secret : Chars) (payload : List Nat) : Chars :=
  SHA.bytesToHex (SHA.hmacSha256 (SHA.utf8 secret) payload)

/-- The secret backend behind `get_secret`. -/
abbrev SecretStore := Chars → Option Chars

def asciiUpper (s : Chars) : Chars :=
  s.map (fun c => if 'a' ≤ c ∧ c ≤ 'z' then Char.ofNat (c.toNat - 32) else c)

def secretName (version : Chars) : Chars := "RECEIPT_HMAC_".data ++ asciiUpper version

/-- `make_receipt`: sign the canonical payload under the version's key;
a failed secret lookup raises (`RuntimeError`). -/
def make_receipt (store : SecretStore) (payload : Json) (version : Chars) :
    Except String Chars :=
  match store (secretName version) with
  | none => .error "Failed to create receipt"
  | some secret =>
    .ok (version ++ ':' :: _hmac_sign secret (_canonicalize_payload payload))

/-- `receipt.split(":", 1)`; `none` models the missing-colon early return. -/
def splitColon : Chars → Option (Chars × Chars)
  | [] => none
  | c :: cs =>
    if c = ':' then some ([], cs)
    else
      match splitColon cs with
      | none => none
      | some (a, b) => some (c :: a, b)

/-- `verify_receipt`: try the named version's key, fall back to the previous
key generation, return false (never raise) otherwise. -/
def verify_receipt (store : SecretStore) (payload : Json) (receipt : Chars) : Bool :=
  match splitColon receipt with
  | none => false
  | some (version, signature) =>
    let canonical := _canonicalize_payload payload
    let tryCur :=
      match store (secretName version) with
      | some secret => _hmac_sign secret canonical == signature
      | none => false
    if tryCur then true
    else
      match store "RECEIPT_HMAC_PREV".data with
      | some prev =>
        if prev.isEmpty then false else _hmac_sign prev canonical == signature
      | none => false

/-- The payload `create_batch_receipt` signs (with its `timestamp` field). -/
def batchSignedPayload (operations : JsonList) (timestamp : ℤ) : Json :=
  .obj (.cons "type".data (.str "batch".data)
    (.cons "operations".data (.arr operations)
      (.cons "count".data (.num (jlistLength operations))
        (.cons "timestamp".data (.num timestamp) .nil))))

/-- The payload `verify_batch_receipt` reconstructs (no `timestamp`). -/
def batchVerifyPayload (operations : JsonList) : Json :=
  .obj (.cons "type".data (.str "batch".data)
    (.cons "operations".data (.arr operations)
      (.cons "count".data (.num (jlistLength operations)) .nil)))

def create_batch_receipt (store : SecretStore) (operations : JsonList)
    (timestamp : ℤ) : Except String Chars :=
  make_receipt store (batchSignedPayload operations timestamp) "v1".data

def verify_batch_receipt (store : SecretStore) (operations : JsonList)
    (receipt : Chars) : Bool :=
  verify_receipt store (batchVerifyPayload operations) receipt

end Receipt

namespace Receipt

/-- A concrete secret backend: v1 key "k1", previous-generation key "k0". -/
def demoStore : SecretStore := fun name =>
  if name = "RECEIPT_HMAC_V1".data then some "k1".data
  else if name = "RECEIPT_HMAC_PREV".data then some "k0".data
  else none

def demoPayload : Json :=
  .obj (.cons "amount_sats".data (.num 1000)
    (.cons "id".data (.str "c1".data) .nil))

/-- `demoPayload` with one field mutated after signing. -/
def demoPayloadMut : Json :=
  .obj (.cons "amount_sats".data (.num 1001)
    (.cons "id".data (.str "c1".data) .nil))

def demoReceipt : Chars :=
  "v1".data ++ ':' :: _hmac_sign "k1".data (_canonicalize_payload demoPayload)

/-- A receipt naming a version with no configured key. -/
def unknownReceipt : Chars :=
  "v9:0000000000000000000000000000000000000000000000000000000000000000".data

def demoBatchReceipt : Chars :=
  "v1".data ++ ':' ::
    _hmac_sign "k1".data (_canonicalize_payload (batchSignedPayload .nil 1700000000000))

end Receipt


/-! ## Lemmas and claim theorems -/

namespace SHA

/-- Known-answer test: SHA-256("abc"). -/
theorem sha256_abc_vector :
    bytesToHex (sha256 (utf8 "abc".data)) =
    "ba7816bf8f01cfea414140de5dae2223b00361a396177a9cb410ff61f20015ad".data := by decide

/-- Known-answer test: HMAC-SHA-256 with key "key". -/
theorem hmac_sha256_vector :
    bytesToHex (hmacSha256 (utf8 "key".data)
      (utf8 "The quick brown fox jumps over the lazy dog".data)) =
    "f7bc83f430538424b13298e6aa6fb143ef4d59a14946175997479dbc2d1a3cd8".data := by decide

end SHA

namespace Fee

theorem truncQ_of_nonneg {q : ℚ} (h : 0 ≤ q) : truncQ q = ⌊q⌋ := by
  simp [truncQ, h]

theorem truncQ_nonneg {q : ℚ} (h : 0 ≤ q) : 0 ≤ truncQ q := by
  rw [truncQ_of_nonneg h]
  exact Int.floor_nonneg.mpr h

/-- Shared description of `calculate_fee_for_payout` on a positive payout:
the fee is the truncated percentage clamped up to the minimum, the platform
and community shares are floors of fee/2 and fee/5, the partner share is the
remainder, and all the `max · 0` clamps are no-ops. -/
theorem feeSplitSpec (payout : ℤ) (gv ur : Bool) (ovr : Option ℚ)
    (hp : 0 < payout) :
    ∃ s : FeeSplit,
      calculate_fee_for_payout payout gv ur ovr = .ok s ∧
      s.fee_percentage = effectivePercent gv ur ovr ∧
      s.sats_fee = (if truncQ ((payout : ℚ) * effectivePercent gv ur ovr) < MINIMUM_FEE_SATS
                    then MINIMUM_FEE_SATS
                    else truncQ ((payout : ℚ) * effectivePercent gv ur ovr)) ∧
      1 ≤ s.sats_fee ∧
      s.platform_share = ⌊(s.sats_fee : ℚ) / 2⌋ ∧
      s.community_share = ⌊(s.sats_fee : ℚ) / 5⌋ ∧
      s.partner_reserved = s.sats_fee - s.platform_share - s.community_share ∧
      0 ≤ s.platform_share ∧ 0 ≤ s.community_share ∧ 0 ≤ s.partner_reserved := by
  have hne : ¬ payout ≤ 0 := not_le.mpr hp
  set pct := effectivePercent gv ur ovr with hpct
  set c := truncQ ((payout : ℚ) * pct) with hc
  set f : ℤ := if c < MINIMUM_FEE_SATS then MINIMUM_FEE_SATS else c with hf
  have hf1 : 1 ≤ f := by
    rw [hf]
    simp only [MINIMUM_FEE_SATS]
    split <;> omega
  have hfQ : (0 : ℚ) ≤ (f : ℚ) := by exact_mod_cast le_trans (by norm_num) hf1
  have e1 : truncQ ((f : ℚ) * (1 - COMMUNITY_FUND_SHARE - PARTNER_CASHOUT_SHARE)) =
      ⌊(f : ℚ) / 2⌋ := by
    have h2 : (f : ℚ) * (1 - COMMUNITY_FUND_SHARE - PARTNER_CASHOUT_SHARE) = (f : ℚ) / 2 := by
      simp [COMMUNITY_FUND_SHARE, PARTNER_CASHOUT_SHARE]
      ring
    rw [h2, truncQ_of_nonneg (by positivity)]
  have e2 : truncQ ((f : ℚ) * COMMUNITY_FUND_SHARE) = ⌊(f : ℚ) / 5⌋ := by
    have h5 : (f : ℚ) * COMMUNITY_FUND_SHARE = (f : ℚ) / 5 := by
      simp [COMMUNITY_FUND_SHARE]
      ring
    rw [h5, truncQ_of_nonneg (by positivity)]
  have hplat0 : 0 ≤ ⌊(f : ℚ) / 2⌋ := Int.floor_nonneg.mpr (by positivity)
  have hcomm0 : 0 ≤ ⌊(f : ℚ) / 5⌋ := Int.floor_nonneg.mpr (by positivity)
  have hpart0 : 0 ≤ f - ⌊(f : ℚ) / 2⌋ - ⌊(f : ℚ) / 5⌋ := by
    have b2 : (⌊(f : ℚ) / 2⌋ : ℚ) ≤ (f : ℚ) / 2 := Int.floor_le _
    have b5 : (⌊(f : ℚ) / 5⌋ : ℚ) ≤ (f : ℚ) / 5 := Int.floor_le _
    have hq : ((⌊(f : ℚ) / 2⌋ + ⌊(f : ℚ) / 5⌋ : ℤ) : ℚ) ≤ ((f : ℤ) : ℚ) := by push_cast; linarith
    have hz : (⌊(f : ℚ) / 2⌋ + ⌊(f : ℚ) / 5⌋ : ℤ) ≤ f := by exact_mod_cast hq
    omega
  refine ⟨⟨f, ⌊(f : ℚ) / 2⌋, ⌊(f : ℚ) / 5⌋, f - ⌊(f : ℚ) / 2⌋ - ⌊(f : ℚ) / 5⌋, pct⟩,
      ?_, rfl, rfl, hf1, rfl, rfl, rfl, hplat0, hcomm0, hpart0⟩
  unfold calculate_fee_for_payout
  rw [if_neg hne]
  simp only [← hpct, ← hc, ← hf, e1, e2]
  rw [max_eq_left hplat0, max_eq_left hcomm0, max_eq_left hpart0]

theorem clamp_floor_eq (q : ℚ) :
    (if truncQ q < MINIMUM_FEE_SATS then MINIMUM_FEE_SATS else truncQ q) =
    (if ⌊q⌋ < MINIMUM_FEE_SATS then MINIMUM_FEE_SATS else ⌊q⌋) := by
  by_cases h : 0 ≤ q
  · rw [truncQ_of_nonneg h]
  · push_neg at h
    have hfl : ⌊q⌋ < 1 := by
      have := Int.floor_le q
      have : (⌊q⌋ : ℚ) < 1 := by linarith
      exact_mod_cast this
    have htr : truncQ q < 1 := by
      have h0 : 0 ≤ ⌊-q⌋ := Int.floor_nonneg.mpr (by linarith)
      simp only [truncQ, if_neg (not_le.mpr h)]
      omega
    simp [MINIMUM_FEE_SATS, htr, hfl]

theorem calc_300_eval :
    calculate_fee_for_payout 300 false false none =
      .ok ⟨3, 1, 0, 2, 1 / 100⟩ := by
  unfold calculate_fee_for_payout effectivePercent
  norm_num [truncQ, BASE_FEE_PERCENT, COMMUNITY_FUND_SHARE, PARTNER_CASHOUT_SHARE,
    MINIMUM_FEE_SATS]

theorem calc_50_eval :
    calculate_fee_for_payout 50 false false none =
      .ok ⟨1, 0, 0, 1, 1 / 100⟩ := by
  unfold calculate_fee_for_payout effectivePercent
  norm_num [truncQ, BASE_FEE_PERCENT, COMMUNITY_FUND_SHARE, PARTNER_CASHOUT_SHARE,
    MINIMUM_FEE_SATS]

end Fee

namespace Gateway

theorem pay_invoice_cached (inv key : String) (db : Db) (out : LndOutcome)
    (a : PaymentAttempt) (hdb : db key = some a) (hs : a.status = .success) :
    pay_invoice inv key db out =
      { db := db, resp := .success a.preimage a.fee_sat true,
        contacted := false, commits := [] } := by
  simp [pay_invoice, hdb, hs]

theorem pay_invoice_other_key (inv key : String) (db : Db) (out : LndOutcome)
    (k : String) (hk : k ≠ key) :
    (pay_invoice inv key db out).db k = db k := by
  unfold pay_invoice
  cases hdb : db key with
  | none => simp [runLnd, Db.update, hk]
  | some a =>
    by_cases h1 : a.status = .success
    · simp [h1]
    · by_cases h2 : a.status = .pending
      · simp [h1, h2]
      · simp [h1, h2, runLnd, Db.update, hk]

theorem runLnd_db_key (invoice key : String) (prior : Option PaymentAttempt)
    (db : Db) (out : LndOutcome) :
    (runLnd invoice key prior db out).db key =
      some (finalAttempt (pendingOf invoice prior) out) := by
  simp [runLnd, Db.update]

theorem pay_invoice_success_db (inv key : String) (db : Db) (out : LndOutcome)
    (p : Option String) (f : Option ℤ) (c : Bool)
    (h : (pay_invoice inv key db out).resp = .success p f c) :
    ∃ a : PaymentAttempt, (pay_invoice inv key db out).db key = some a ∧
      a.status = .success ∧ a.preimage = p ∧ a.fee_sat = f := by
  cases hdb : db key with
  | some a =>
    by_cases h1 : a.status = .success
    · rw [pay_invoice_cached inv key db out a hdb h1] at h ⊢
      injection h with hp hf hc
      exact ⟨a, hdb, h1, hp, hf⟩
    · by_cases h2 : a.status = .pending
      · rw [show pay_invoice inv key db out =
            { db := db, resp := .conflict "Payment already in progress",
              contacted := false, commits := [] } from by
            simp [pay_invoice, hdb, h1, h2]] at h
        cases h
      · have hrun : pay_invoice inv key db out =
            runLnd (stripLightning inv.trim) key (some a) db out := by
          simp [pay_invoice, hdb, h1, h2]
        rw [hrun] at h ⊢
        cases out with
        | res r =>
          by_cases hr : r.success
          · have h' : finalResp (.res r) = .success p f c := h
            simp only [finalResp, hr, if_pos rfl] at h'
            injection h' with hp hf hc
            subst hp
            subst hf
            exact ⟨_, runLnd_db_key _ _ _ _ _, by simp [finalAttempt, hr],
              by simp [finalAttempt, hr], by simp [finalAttempt, hr]⟩
          · have h' : finalResp (.res r) = .success p f c := h
            simp [finalResp, hr] at h'
        | clientError m => cases h
        | otherError m => cases h
  | none =>
    have hrun : pay_invoice inv key db out =
        runLnd (stripLightning inv.trim) key none db out := by
      simp [pay_invoice, hdb]
    rw [hrun] at h ⊢
    cases out with
    | res r =>
      by_cases hr : r.success
      · have h' : finalResp (.res r) = .success p f c := h
        simp only [finalResp, hr, if_pos rfl] at h'
        injection h' with hp hf hc
        subst hp
        subst hf
        exact ⟨_, runLnd_db_key _ _ _ _ _, by simp [finalAttempt, hr],
          by simp [finalAttempt, hr], by simp [finalAttempt, hr]⟩
      · have h' : finalResp (.res r) = .success p f c := h
        simp [finalResp, hr] at h'
    | clientError m => cases h
    | otherError m => cases h

theorem pay_invoice_clientError (inv key : String) (db : Db) (msg : String)
    (hadm : db key = none ∨ ∃ a, db key = some a ∧ a.status = .failed) :
    (∃ a : PaymentAttempt, (pay_invoice inv key db (.clientError msg)).db key = some a ∧
      a.status = .failed ∧ a.error_message = some msg) ∧
    (pay_invoice inv key db (.clientError msg)).resp = .lndError ("LND error: " ++ msg) ∧
    (pay_invoice inv key db (.clientError msg)).contacted = true := by
  have hrun : ∃ prior, pay_invoice inv key db (.clientError msg) =
      runLnd (stripLightning inv.trim) key prior db (.clientError msg) := by
    rcases hadm with h | ⟨a, ha, hf⟩
    · exact ⟨none, by simp [pay_invoice, h]⟩
    · refine ⟨some a, ?_⟩
      have h1 : ¬ a.status = PayStatus.success := by rw [hf]; intro hc; cases hc
      have h2 : ¬ a.status = PayStatus.pending := by rw [hf]; intro hc; cases hc
      simp [pay_invoice, ha, h1, h2]
  obtain ⟨prior, hrun⟩ := hrun
  rw [hrun]
  refine ⟨⟨_, runLnd_db_key _ _ _ _ _, ?_, ?_⟩, rfl, rfl⟩ <;> simp [finalAttempt]

end Gateway

/-- Claim C4: for every payoutSats > 0, with any combination of the
groupVerified/userRecurring flags and any optional fee-percent override,
`calculate_fee_for_payout` returns a split with
`sats_fee = platform_share + community_share + partner_reserved` exactly,
and all three shares nonnegative. -/
theorem c4_fee_split_exact_and_nonneg (payout : ℤ) (gv ur : Bool) (ovr : Option ℚ)
    (hp : 0 < payout) :
    ∃ s : Fee.FeeSplit,
      Fee.calculate_fee_for_payout payout gv ur ovr = .ok s ∧
      s.sats_fee = s.platform_share + s.community_share + s.partner_reserved ∧
      0 ≤ s.platform_share ∧ 0 ≤ s.community_share ∧ 0 ≤ s.partner_reserved := by
  obtain ⟨s, h1, -, -, -, -, -, hrem, hn1, hn2, hn3⟩ := Fee.feeSplitSpec payout gv ur ovr hp
  exact ⟨s, h1, by omega, hn1, hn2, hn3⟩

/-- Witness for C4 at payout 100000 with both discounts. -/
theorem c4_witness :
    (0 : ℤ) < 100000 ∧
    ∃ s : Fee.FeeSplit,
      Fee.calculate_fee_for_payout 100000 true true none = .ok s ∧
      s.sats_fee = s.platform_share + s.community_share + s.partner_reserved ∧
      0 ≤ s.platform_share ∧ 0 ≤ s.community_share ∧ 0 ≤ s.partner_reserved :=
  ⟨by decide, c4_fee_split_exact_and_nonneg 100000 true true none (by decide)⟩

/-- Claim C5: the minimum-fee clamp.  For every payoutSats > 0 the returned fee
equals `⌊payoutSats * effectivePercent⌋` when that is at least the configured
minimum fee, and equals the minimum fee exactly when the computed value is
smaller; in particular a payout of 50 sats at the base percent of 1% computes
fee 0, clamped to 1 sat, for a net payout of 49. -/
theorem c5_minimum_fee_clamp :
    (∀ (payout : ℤ) (gv ur : Bool) (ovr : Option ℚ), 0 < payout →
      ∃ s : Fee.FeeSplit,
        Fee.calculate_fee_for_payout payout gv ur ovr = .ok s ∧
        (Fee.MINIMUM_FEE_SATS ≤ ⌊(payout : ℚ) * Fee.effectivePercent gv ur ovr⌋ →
          s.sats_fee = ⌊(payout : ℚ) * Fee.effectivePercent gv ur ovr⌋) ∧
        (⌊(payout : ℚ) * Fee.effectivePercent gv ur ovr⌋ < Fee.MINIMUM_FEE_SATS →
          s.sats_fee = Fee.MINIMUM_FEE_SATS)) ∧
    (∃ s : Fee.FeeSplit,
      Fee.calculate_fee_for_payout 50 false false none = .ok s ∧
      ⌊(50 : ℚ) * Fee.effectivePercent false false none⌋ = 0 ∧
      s.sats_fee = Fee.MINIMUM_FEE_SATS ∧ Fee.MINIMUM_FEE_SATS = 1 ∧
      50 - s.sats_fee = 49) := by
  constructor
  · intro payout gv ur ovr hp
    obtain ⟨s, h1, -, hfee, -, -, -, -, -, -, -⟩ := Fee.feeSplitSpec payout gv ur ovr hp
    rw [Fee.clamp_floor_eq] at hfee
    refine ⟨s, h1, ?_, ?_⟩
    · intro hge
      rw [hfee, if_neg (not_lt.mpr hge)]
    · intro hlt
      rw [hfee, if_pos hlt]
  · refine ⟨⟨1, 0, 0, 1, 1 / 100⟩, Fee.calc_50_eval, ?_, rfl, rfl, by decide⟩
    norm_num [Fee.effectivePercent, Fee.BASE_FEE_PERCENT]

/-- Witness for C5 at payout 7 (computed fee 0, clamped to the minimum). -/
theorem c5_witness :
    (0 : ℤ) < 7 ∧
    ∃ s : Fee.FeeSplit,
      Fee.calculate_fee_for_payout 7 false false none = .ok s ∧
      (Fee.MINIMUM_FEE_SATS ≤ ⌊(7 : ℚ) * Fee.effectivePercent false false none⌋ →
        s.sats_fee = ⌊(7 : ℚ) * Fee.effectivePercent false false none⌋) ∧
      (⌊(7 : ℚ) * Fee.effectivePercent false false none⌋ < Fee.MINIMUM_FEE_SATS →
        s.sats_fee = Fee.MINIMUM_FEE_SATS) :=
  ⟨by decide, c5_minimum_fee_clamp.1 7 false false none (by decide)⟩

/-- Counterexample to claim C6 at payout 300 (fee 3): the code floors the
platform and community shares and gives the remainder to the partner share
(community 0, partner 2, platform 1), while the claim demands the floored
partner share (0) with the remainder on the platform share (3). -/
theorem c6_counterexample :
    ¬ ∃ s : Fee.FeeSplit,
        Fee.calculate_fee_for_payout 300 false false none = .ok s ∧
        s.community_share = Fee.truncQ ((s.sats_fee : ℚ) * Fee.COMMUNITY_FUND_SHARE) ∧
        s.partner_reserved = Fee.truncQ ((s.sats_fee : ℚ) * Fee.PARTNER_CASHOUT_SHARE) ∧
        s.platform_share = s.sats_fee - s.community_share - s.partner_reserved := by
  rintro ⟨s, hs, hc, hpr, hpl⟩
  rw [Fee.calc_300_eval] at hs
  injection hs with h
  subst h
  norm_num [Fee.truncQ, Fee.PARTNER_CASHOUT_SHARE] at hpr

/-- Claim C6 as amended: in the three-way split the rounding remainder is
absorbed by the PARTNER share, not the platform share: platform and community
are the truncated fractional amounts and the partner share is the total fee
minus those two; the conservation equation still holds exactly. -/
theorem c6_amended_partner_absorbs_remainder (payout : ℤ) (gv ur : Bool)
    (ovr : Option ℚ) (hp : 0 < payout) :
    ∃ s : Fee.FeeSplit,
      Fee.calculate_fee_for_payout payout gv ur ovr = .ok s ∧
      s.platform_share =
        ⌊(s.sats_fee : ℚ) * (1 - Fee.COMMUNITY_FUND_SHARE - Fee.PARTNER_CASHOUT_SHARE)⌋ ∧
      s.community_share = ⌊(s.sats_fee : ℚ) * Fee.COMMUNITY_FUND_SHARE⌋ ∧
      s.partner_reserved = s.sats_fee - s.platform_share - s.community_share ∧
      s.sats_fee = s.platform_share + s.community_share + s.partner_reserved := by
  obtain ⟨s, h1, -, -, -, hpl, hco, hpa, -, -, -⟩ := Fee.feeSplitSpec payout gv ur ovr hp
  have e1 : ((s.sats_fee : ℚ) * (1 - Fee.COMMUNITY_FUND_SHARE - Fee.PARTNER_CASHOUT_SHARE)) =
      (s.sats_fee : ℚ) / 2 := by
    norm_num [Fee.COMMUNITY_FUND_SHARE, Fee.PARTNER_CASHOUT_SHARE]
    ring
  have e2 : ((s.sats_fee : ℚ) * Fee.COMMUNITY_FUND_SHARE) = (s.sats_fee : ℚ) / 5 := by
    norm_num [Fee.COMMUNITY_FUND_SHARE]
    ring
  refine ⟨s, h1, ?_, ?_, hpa, by omega⟩
  · rw [e1, ← hpl]
  · rw [e2, ← hco]

/-- Witness for the amended C6 at payout 12345 with a 3% override. -/
theorem c6_witness :
    (0 : ℤ) < 12345 ∧
    ∃ s : Fee.FeeSplit,
      Fee.calculate_fee_for_payout 12345 false false (some (3 / 100)) = .ok s ∧
      s.platform_share =
        ⌊(s.sats_fee : ℚ) * (1 - Fee.COMMUNITY_FUND_SHARE - Fee.PARTNER_CASHOUT_SHARE)⌋ ∧
      s.community_share = ⌊(s.sats_fee : ℚ) * Fee.COMMUNITY_FUND_SHARE⌋ ∧
      s.partner_reserved = s.sats_fee - s.platform_share - s.community_share ∧
      s.sats_fee = s.platform_share + s.community_share + s.partner_reserved :=
  ⟨by decide, c6_amended_partner_absorbs_remainder 12345 false false (some (3 / 100)) (by decide)⟩


namespace Lnd

theorem scanEvents_characterization (chunks : List (Option Ev)) (acc : Option Ev) :
    scanEvents chunks acc =
      match (chunks.filterMap id).find? isTerminal with
      | some t => some t
      | none =>
        match (chunks.filterMap id).getLast? with
        | some l => some l
        | none => acc := by
  induction chunks generalizing acc with
  | nil => rfl
  | cons c rest ih =>
    cases c with
    | none => simpa [scanEvents] using ih acc
    | some ev =>
      by_cases ht : isTerminal ev
      · simp [scanEvents, ht, List.find?]
      · rw [show scanEvents (some ev :: rest) acc = scanEvents rest (some ev) from by
          simp [scanEvents, ht]]
        rw [ih (some ev)]
        have hev : isTerminal ev = false := by simpa using ht
        simp only [List.filterMap_cons, id, List.find?, hev]
        cases hfr : rest.filterMap id with
        | nil => simp [List.find?]
        | cons x xs =>
          simp only [List.getLast?_cons_cons]
          cases hfind : (x :: xs).find? isTerminal with
          | some t => simp
          | none =>
            cases hlast : (x :: xs).getLast? with
            | some l => simp
            | none => simp at hlast

end Lnd

/-- Claim C8 as amended: the client keeps only the last parsed status event,
stopping at the first terminal (FAILED/SUCCEEDED) one; a stream with no
parsed event raises the hard `LndClientError` "No response events"; but a
final NON-terminal event (e.g. IN_FLIGHT, with no failure object and no
preimage) IS treated as reaching a conclusion: it is returned as a definitive
application-level failure (`success := false` with the stringified event as
the reason). -/
theorem c8_amended_stream_normalization :
    (∀ chunks : List (Option Lnd.Ev),
      Lnd.scanEvents chunks none =
        match (chunks.filterMap id).find? Lnd.isTerminal with
        | some t => some t
        | none => (chunks.filterMap id).getLast?) ∧
    (∀ (body : String) (chunks : List (Option Lnd.Ev)),
      chunks.filterMap id = [] →
      Lnd.pay_invoice (.resp 200 body chunks) =
        .error "No response events from LND router") ∧
    (∀ (body : String) (chunks : List (Option Lnd.Ev)) (ev : Lnd.Ev),
      Lnd.scanEvents chunks none = some ev →
      ev.status ≠ some "SUCCEEDED" →
      ev.status ≠ some "FAILED" →
      ev.failure = none →
      Lnd.truthy ev.preimage = false →
      Lnd.truthy ev.payment_preimage = false →
      Lnd.pay_invoice (.resp 200 body chunks) =
        .ok { success := false, preimage := none, fee_sat := none,
              error := some (Lnd.extractReason ev) }) := by
  refine ⟨?_, ?_, ?_⟩
  · intro chunks
    rw [Lnd.scanEvents_characterization]
    cases hf : (chunks.filterMap id).find? Lnd.isTerminal with
    | some t => rfl
    | none => cases hl : (chunks.filterMap id).getLast? <;> rfl
  · intro body chunks hempty
    have h1 := Lnd.scanEvents_characterization chunks none
    rw [hempty] at h1
    simp only [List.find?, List.getLast?] at h1
    simp [Lnd.pay_invoice, h1]
  · intro body chunks ev hscan hns hnf hfail hp hpp
    simp [Lnd.pay_invoice, hscan, hns, hfail, hp, hpp]

/-- Counterexample to claim C8: a stream whose final (and only) event is
non-terminal IN_FLIGHT is not left inconclusive - the client returns a
definitive application-level failure dict (`success: false`), which the
endpoint then records as a failed attempt (its 400 being swallowed by the
generic exception handler into a 500 answer). -/
theorem c8_counterexample :
    Lnd.pay_invoice (.resp 200 "" [some Lnd.sampleInFlight]) =
      .ok { success := false, preimage := none, fee_sat := none,
            error := some "event:IN_FLIGHT" } ∧
    (∃ a : Gateway.PaymentAttempt,
      (Gateway.pay_invoice "lnbc1xyz" "key-00000002" (fun _ => none)
        (.res { success := false, preimage := none, fee_sat := none,
                error := some "event:IN_FLIGHT" })).db "key-00000002" = some a ∧
      a.status = .failed ∧
      a.error_message = some ("400: Payment failed: " ++ "event:IN_FLIGHT")) ∧
    (Gateway.pay_invoice "lnbc1xyz" "key-00000002" (fun _ => none)
      (.res { success := false, preimage := none, fee_sat := none,
              error := some "event:IN_FLIGHT" })).resp = .internalError := by
  have hrun : ∀ out, Gateway.pay_invoice "lnbc1xyz" "key-00000002" (fun _ => none) out =
      Gateway.runLnd (Gateway.stripLightning "lnbc1xyz".trim) "key-00000002"
        none (fun _ => none) out := by
    intro out
    simp [Gateway.pay_invoice]
  refine ⟨?_, ?_, ?_⟩
  · simp [Lnd.pay_invoice, Lnd.scanEvents, Lnd.isTerminal, Lnd.sampleInFlight,
      Lnd.extractReason, Lnd.evStr, Lnd.truthy]
  · rw [hrun]
    exact ⟨_, Gateway.runLnd_db_key _ _ _ _ _, by simp [Gateway.finalAttempt],
      by simp [Gateway.finalAttempt]⟩
  · rw [hrun]
    rfl

/-- Witness for the amended C8: a stream of one non-JSON chunk (no events),
and a stream whose only event is IN_FLIGHT. -/
theorem c8_witness :
    (([none] : List (Option Lnd.Ev)).filterMap id = [] ∧
      Lnd.pay_invoice (.resp 200 "body" [none]) =
        .error "No response events from LND router") ∧
    (Lnd.scanEvents [some Lnd.sampleInFlight] none = some Lnd.sampleInFlight ∧
      Lnd.pay_invoice (.resp 200 "body" [some Lnd.sampleInFlight]) =
        .ok { success := false, preimage := none, fee_sat := none,
              error := some (Lnd.extractReason Lnd.sampleInFlight) }) :=
  ⟨⟨rfl, c8_amended_stream_normalization.2.1 "body" [none] rfl⟩,
   ⟨rfl, c8_amended_stream_normalization.2.2 "body" [some Lnd.sampleInFlight]
      Lnd.sampleInFlight rfl (by decide) (by decide) rfl rfl rfl⟩⟩

/-- Counterexample to claim C9: the admission check is a read-then-write, not
an atomic compare-and-set.  With a prior FAILED row, the lockstep interleaving
A-read, B-read, A-write, B-write admits BOTH requests: both contact the
network (the key is processed concurrently) and both answer a fresh success,
neither a Conflict nor a cached result. -/
theorem c9_counterexample :
    (Race.runSched [false, true, false, true, false, true, false, true]
      { store := some { invoice := "lnold", status := .failed, preimage := none,
                        fee_sat := none, error_message := some "prev err" },
        procA := Race.initProc "lnbcA"
          (.res { success := true, preimage := some "p1", fee_sat := some 1,
                  error := none }),
        procB := Race.initProc "lnbcB"
          (.res { success := true, preimage := some "p2", fee_sat := some 1,
                  error := none }) }).procA.contacted = true ∧
    (Race.runSched [false, true, false, true, false, true, false, true]
      { store := some { invoice := "lnold", status := .failed, preimage := none,
                        fee_sat := none, error_message := some "prev err" },
        procA := Race.initProc "lnbcA"
          (.res { success := true, preimage := some "p1", fee_sat := some 1,
                  error := none }),
        procB := Race.initProc "lnbcB"
          (.res { success := true, preimage := some "p2", fee_sat := some 1,
                  error := none }) }).procB.contacted = true ∧
    (Race.runSched [false, true, false, true, false, true, false, true]
      { store := some { invoice := "lnold", status := .failed, preimage := none,
                        fee_sat := none, error_message := some "prev err" },
        procA := Race.initProc "lnbcA"
          (.res { success := true, preimage := some "p1", fee_sat := some 1,
                  error := none }),
        procB := Race.initProc "lnbcB"
          (.res { success := true, preimage := some "p2", fee_sat := some 1,
                  error := none }) }).procB.resp =
      some (.success (some "p2") (some 1) false) := by
  exact ⟨rfl, rfl, rfl⟩

/-- Claim C9 as amended: when the second request's admission read happens
after the first's pending commit it receives Conflict, and after the first's
success commit it receives the cached success; so strictly sequential calls
do behave as claimed - but the admission check is a read-then-write race, not
an atomic compare-and-set (see the counterexample's interleaving, which
admits both). -/
theorem c9_amended_admission_ordering :
    (∀ (g : Race.Store) (p : Race.Proc) (a : Gateway.PaymentAttempt),
      g = some a → a.status = .pending → p.pc = .admission →
      (Race.step g p).2.resp = some (.conflict "Payment already in progress") ∧
      (Race.step g p).2.pc = .done ∧
      (Race.step g p).2.contacted = p.contacted ∧
      (Race.step g p).1 = g) ∧
    (∀ (g : Race.Store) (p : Race.Proc) (a : Gateway.PaymentAttempt),
      g = some a → a.status = .success → p.pc = .admission →
      (Race.step g p).2.resp = some (.success a.preimage a.fee_sat true) ∧
      (Race.step g p).2.pc = .done ∧
      (Race.step g p).2.contacted = p.contacted ∧
      (Race.step g p).1 = g) ∧
    (∀ (invA invB : String) (r : Gateway.LndPayResult)
        (outB : Gateway.LndOutcome) (a : Gateway.PaymentAttempt),
      a.status = .failed → r.success = true →
      (Race.runSched [false, false, false, false, true]
        { store := some a, procA := Race.initProc invA (.res r),
          procB := Race.initProc invB outB }).procB.resp =
        some (.success r.preimage r.fee_sat true) ∧
      (Race.runSched [false, false, false, false, true]
        { store := some a, procA := Race.initProc invA (.res r),
          procB := Race.initProc invB outB }).procB.contacted = false ∧
      (Race.runSched [false, false, false, false, true]
        { store := some a, procA := Race.initProc invA (.res r),
          procB := Race.initProc invB outB }).procA.contacted = true) := by
  refine ⟨?_, ?_, ?_⟩
  · intro g p a hg hs hpc
    subst hg
    simp [Race.step, hpc, hs]
  · intro g p a hg hs hpc
    subst hg
    simp [Race.step, hpc, hs]
  · intro invA invB r outB a ha hr
    have h1 : ¬ a.status = Gateway.PayStatus.success := by rw [ha]; intro h; cases h
    have h2 : ¬ a.status = Gateway.PayStatus.pending := by rw [ha]; intro h; cases h
    refine ⟨?_, ?_, ?_⟩ <;>
      simp [Race.runSched, Race.stepSys, Race.step, Race.initProc, h1, h2,
        Gateway.finalAttempt, Gateway.pendingOf, Gateway.finalResp, hr]

/-- Witness for the amended C9 at concrete rows and requests. -/
theorem c9_witness :
    ((some { invoice := "ln1", status := .pending, preimage := none,
             fee_sat := none, error_message := none } : Race.Store) =
      some { invoice := "ln1", status := .pending, preimage := none,
             fee_sat := none, error_message := none } ∧
      (Race.step
        (some { invoice := "ln1", status := .pending, preimage := none,
                fee_sat := none, error_message := none })
        (Race.initProc "ln2" (.clientError "x"))).2.resp =
        some (.conflict "Payment already in progress")) ∧
    ((Race.runSched [false, false, false, false, true]
      { store := some { invoice := "lnold", status := .failed, preimage := none,
                        fee_sat := none, error_message := none },
        procA := Race.initProc "lnA"
          (.res { success := true, preimage := some "pre", fee_sat := some 3,
                  error := none }),
        procB := Race.initProc "lnB" (.clientError "never used") }).procB.resp =
      some (.success (some "pre") (some 3) true) ∧
      (Race.runSched [false, false, false, false, true]
        { store := some { invoice := "lnold", status := .failed, preimage := none,
                          fee_sat := none, error_message := none },
          procA := Race.initProc "lnA"
            (.res { success := true, preimage := some "pre", fee_sat := some 3,
                    error := none }),
          procB := Race.initProc "lnB" (.clientError "never used") }).procB.contacted =
        false) :=
  ⟨⟨rfl, (c9_amended_admission_ordering.1
      (some { invoice := "ln1", status := .pending, preimage := none,
              fee_sat := none, error_message := none })
      (Race.initProc "ln2" (.clientError "x"))
      { invoice := "ln1", status := .pending, preimage := none,
        fee_sat := none, error_message := none } rfl rfl rfl).1⟩,
   ⟨(c9_amended_admission_ordering.2.2 "lnA" "lnB"
      { success := true, preimage := some "pre", fee_sat := some 3, error := none }
      (.clientError "never used")
      { invoice := "lnold", status := .failed, preimage := none,
        fee_sat := none, error_message := none } rfl rfl).1,
    (c9_amended_admission_ordering.2.2 "lnA" "lnB"
      { success := true, preimage := some "pre", fee_sat := some 3, error := none }
      (.clientError "never used")
      { invoice := "lnold", status := .failed, preimage := none,
        fee_sat := none, error_message := none } rfl rfl).2.1⟩⟩

namespace Receipt

theorem splitColon_append (v rest : Chars) (hv : ':' ∉ v) :
    splitColon (v ++ ':' :: rest) = some (v, rest) := by
  induction v with
  | nil => simp [splitColon]
  | cons c cs ih =>
    have hc : ¬ c = ':' := fun h => hv (by simp [h])
    have hcs : ':' ∉ cs := fun h => hv (List.mem_cons_of_mem _ h)
    simp [splitColon, hc, ih hcs]

theorem splitColon_eq_none (cs : Chars) (h : ':' ∉ cs) : splitColon cs = none := by
  induction cs with
  | nil => rfl
  | cons c cs ih =>
    have hc : ¬ c = ':' := fun hx => h (by simp [hx])
    have hcs : ':' ∉ cs := fun hx => h (List.mem_cons_of_mem _ hx)
    simp [splitColon, hc, ih hcs]

theorem make_verify_roundtrip (store : SecretStore) (payload : Json)
    (version r : Chars) (hv : ':' ∉ version)
    (h : make_receipt store payload version = .ok r) :
    verify_receipt store payload r = true := by
  unfold make_receipt at h
  cases hsec : store (secretName version) with
  | none => rw [hsec] at h; cases h
  | some secret =>
    rw [hsec] at h
    injection h with h
    subst h
    unfold verify_receipt
    rw [splitColon_append version _ hv]
    simp [hsec]

theorem verify_no_colon (store : SecretStore) (payload : Json) (rc : Chars)
    (h : ':' ∉ rc) : verify_receipt store payload rc = false := by
  unfold verify_receipt
  rw [splitColon_eq_none rc h]

theorem toDigitsCore_length (b : Nat) :
    ∀ (fuel n : Nat) (ds : List Char),
      ds.length ≤ (Nat.toDigitsCore b fuel n ds).length := by
  intro fuel
  induction fuel with
  | zero => intro n ds; simp [Nat.toDigitsCore]
  | succ f ih =>
    intro n ds
    unfold Nat.toDigitsCore
    by_cases h : n / b = 0
    · simp [h]
    · simp only [h, if_neg h]
      calc ds.length ≤ (Nat.digitChar (n % b) :: ds).length := by simp
        _ ≤ _ := ih (n / b) _

theorem intChars_length_pos (n : ℤ) : 1 ≤ (intChars n).length := by
  unfold intChars natChars Nat.toDigits
  by_cases h : n < 0
  · simp [h]
  · simp only [h, if_false]
    unfold Nat.toDigitsCore
    by_cases h2 : n.natAbs / 10 = 0
    · simp [h2]
    · simp only [h2, if_neg h2]
      calc 1 = [Nat.digitChar (n.natAbs % 10)].length := rfl
        _ ≤ _ := toDigitsCore_length 10 n.natAbs (n.natAbs / 10) _

theorem batch_canonical_ne (ops : JsonList) (ts : ℤ) :
    serialize (batchSignedPayload ops ts) ≠ serialize (batchVerifyPayload ops) := by
  have e1 : serialize (batchSignedPayload ops ts) =
      '\x7b' :: ((strLit "count".data ++ ':' :: serialize (.num (jlistLength ops))) ++
        ',' :: ((strLit "operations".data ++ ':' :: serialize (.arr ops)) ++
          ',' :: ((strLit "timestamp".data ++ ':' :: serialize (.num ts)) ++
            ',' :: (strLit "type".data ++ ':' :: serialize (.str "batch".data))))) ++
        ['\x7d'] := rfl
  have e2 : serialize (batchVerifyPayload ops) =
      '\x7b' :: ((strLit "count".data ++ ':' :: serialize (.num (jlistLength ops))) ++
        ',' :: ((strLit "operations".data ++ ':' :: serialize (.arr ops)) ++
          ',' :: (strLit "type".data ++ ':' :: serialize (.str "batch".data)))) ++
        ['\x7d'] := rfl
  intro h
  rw [e1, e2] at h
  have hlen := congrArg List.length h
  simp only [List.length_append, List.length_cons] at hlen
  have h1 := intChars_length_pos ts
  have h2 : (serialize (.num ts)).length = (intChars ts).length := rfl
  omega

end Receipt

/-- Claim C7: receipt round-trip and total verification.  For every payload
and colon-free version, a receipt made by `make_receipt` verifies against the
same payload; `verify_receipt` is a total function returning `false` (never
raising - every exception path of the Python code returns False, which the
embedding reflects by totality) on a receipt with no colon, on a payload with
one field mutated after signing, and on an unknown version whose fallback key
does not match. -/
theorem c7_receipt_roundtrip_total :
    (∀ (store : Receipt.SecretStore) (payload : Receipt.Json) (version r : Receipt.Chars),
      ':' ∉ version → Receipt.make_receipt store payload version = .ok r →
      Receipt.verify_receipt store payload r = true) ∧
    (∀ (store : Receipt.SecretStore) (payload : Receipt.Json) (rc : Receipt.Chars),
      ':' ∉ rc → Receipt.verify_receipt store payload rc = false) ∧
    (Receipt.make_receipt Receipt.demoStore Receipt.demoPayload "v1".data =
        .ok Receipt.demoReceipt ∧
      Receipt.verify_receipt Receipt.demoStore Receipt.demoPayloadMut
        Receipt.demoReceipt = false) ∧
    Receipt.verify_receipt Receipt.demoStore Receipt.demoPayload
      Receipt.unknownReceipt = false := by
  refine ⟨Receipt.make_verify_roundtrip, Receipt.verify_no_colon, ⟨rfl, ?_⟩, ?_⟩
  · decide
  · decide

/-- Witness for C7: the round-trip and the malformed-receipt rejection at a
concrete store, payload and receipt. -/
theorem c7_witness :
    (':' ∉ "v1".data ∧
      Receipt.make_receipt Receipt.demoStore Receipt.demoPayload "v1".data =
        .ok Receipt.demoReceipt ∧
      Receipt.verify_receipt Receipt.demoStore Receipt.demoPayload
        Receipt.demoReceipt = true) ∧
    (':' ∉ "garbagereceipt".data ∧
      Receipt.verify_receipt Receipt.demoStore Receipt.demoPayload
        "garbagereceipt".data = false) :=
  ⟨⟨by decide, rfl,
    c7_receipt_roundtrip_total.1 Receipt.demoStore Receipt.demoPayload
      "v1".data Receipt.demoReceipt (by decide) rfl⟩,
   ⟨by decide,
    c7_receipt_roundtrip_total.2.1 Receipt.demoStore Receipt.demoPayload
      "garbagereceipt".data (by decide)⟩⟩

/-- Claim C10: the batch-receipt round-trip never verifies.
`create_batch_receipt` signs a payload whose canonical serialization contains
the `timestamp` field, `verify_batch_receipt` reconstructs the payload
without it, so for every operations list and timestamp the canonical
serializations differ (proved for all inputs), and at a concrete store the
signed batch receipt indeed fails verification under both the current and the
previous key. -/
theorem c10_batch_receipt_never_verifies :
    (∀ (ops : Receipt.JsonList) (ts : ℤ),
      Receipt.serialize (Receipt.batchSignedPayload ops ts) ≠
        Receipt.serialize (Receipt.batchVerifyPayload ops)) ∧
    (Receipt.create_batch_receipt Receipt.demoStore .nil 1700000000000 =
        .ok Receipt.demoBatchReceipt ∧
      Receipt.verify_batch_receipt Receipt.demoStore .nil
        Receipt.demoBatchReceipt = false) := by
  refine ⟨Receipt.batch_canonical_ne, rfl, ?_⟩
  decide

/-- Claim C1: the idempotent short-circuit.  If a `PaymentAttempt` row with id
k exists in status success, `pay_invoice` with key k returns the stored result
(same preimage and fee, `cached := true`) without touching the database,
committing anything, or contacting the network; consequently if one call
returns a success response, a second sequential call with the same key and
payload returns the same preimage and fee marked cached, without contacting
the network, so the network is contacted at most once across the two calls. -/
theorem c1_idempotent_short_circuit :
    (∀ (inv key : String) (db : Gateway.Db) (out : Gateway.LndOutcome)
        (a : Gateway.PaymentAttempt), db key = some a → a.status = .success →
      Gateway.pay_invoice inv key db out =
        { db := db, resp := .success a.preimage a.fee_sat true,
          contacted := false, commits := [] }) ∧
    (∀ (inv key : String) (db : Gateway.Db) (out1 out2 : Gateway.LndOutcome)
        (p : Option String) (f : Option ℤ) (c : Bool),
      (Gateway.pay_invoice inv key db out1).resp = .success p f c →
      (Gateway.pay_invoice inv key (Gateway.pay_invoice inv key db out1).db out2).resp =
          .success p f true ∧
      (Gateway.pay_invoice inv key (Gateway.pay_invoice inv key db out1).db out2).contacted =
          false ∧
      ¬((Gateway.pay_invoice inv key db out1).contacted = true ∧
        (Gateway.pay_invoice inv key (Gateway.pay_invoice inv key db out1).db out2).contacted =
          true)) := by
  constructor
  · exact Gateway.pay_invoice_cached
  · intro inv key db out1 out2 p f c h
    obtain ⟨a, hdb, hs, hp, hf⟩ := Gateway.pay_invoice_success_db inv key db out1 p f c h
    have h2 := Gateway.pay_invoice_cached inv key _ out2 a hdb hs
    rw [h2, hp, hf]
    exact ⟨rfl, rfl, fun hx => by cases hx.2⟩

/-- Witness for C1: a database holding a success row for key "cycle-42". -/
theorem c1_witness :
    ((fun k => if k = "cycle-42" then
        some ({ invoice := "lnbc1", status := .success, preimage := some "ab",
                fee_sat := some 2, error_message := none } : Gateway.PaymentAttempt)
      else none) : Gateway.Db) "cycle-42" =
      some { invoice := "lnbc1", status := .success, preimage := some "ab",
             fee_sat := some 2, error_message := none } ∧
    Gateway.pay_invoice "lnbc1" "cycle-42"
      (fun k => if k = "cycle-42" then
        some { invoice := "lnbc1", status := .success, preimage := some "ab",
               fee_sat := some 2, error_message := none }
      else none)
      (.clientError "net down") =
      { db := fun k => if k = "cycle-42" then
          some { invoice := "lnbc1", status := .success, preimage := some "ab",
                 fee_sat := some 2, error_message := none }
        else none,
        resp := .success (some "ab") (some 2) true,
        contacted := false, commits := [] } :=
  ⟨by simp, c1_idempotent_short_circuit.1 "lnbc1" "cycle-42" _ (.clientError "net down")
    { invoice := "lnbc1", status := .success, preimage := some "ab",
      fee_sat := some 2, error_message := none } (by simp) rfl⟩

/-- Claim C3: success is terminal.  A success row is never mutated by any
call (no commits are made for its key and the database is unchanged); every
status committed by any single call follows only the allowed transitions
pending→success, pending→failed, failed→pending from the prior status; and
under every sequence of calls a success row stays exactly as it is. -/
theorem c3_success_is_terminal :
    (∀ (inv key : String) (db : Gateway.Db) (out : Gateway.LndOutcome)
        (a : Gateway.PaymentAttempt), db key = some a → a.status = .success →
      (Gateway.pay_invoice inv key db out).db = db ∧
      (Gateway.pay_invoice inv key db out).commits = []) ∧
    (∀ (inv key : String) (db : Gateway.Db) (out : Gateway.LndOutcome),
      Gateway.chainOk ((db key).map (fun a => a.status))
        (Gateway.pay_invoice inv key db out).commits = true) ∧
    (∀ (calls : List Gateway.Call) (db : Gateway.Db) (key : String)
        (a : Gateway.PaymentAttempt), db key = some a → a.status = .success →
      Gateway.runCalls calls db key = some a) := by
  refine ⟨?_, ?_, ?_⟩
  · intro inv key db out a hdb hs
    rw [Gateway.pay_invoice_cached inv key db out a hdb hs]
    exact ⟨rfl, rfl⟩
  · intro inv key db out
    cases hdb : db key with
    | some a =>
      by_cases h1 : a.status = .success
      · rw [Gateway.pay_invoice_cached inv key db out a hdb h1]
        rfl
      · by_cases h2 : a.status = .pending
        · simp [Gateway.pay_invoice, hdb, h1, h2, Gateway.chainOk]
        · have h3 : a.status = .failed := by
            cases hst : a.status
            · exact absurd hst h2
            · exact absurd hst h1
            · rfl
          have hrun : Gateway.pay_invoice inv key db out =
              Gateway.runLnd (Gateway.stripLightning inv.trim) key (some a) db out := by
            simp [Gateway.pay_invoice, hdb, h1, h2]
          rw [hrun]
          cases out with
          | res r =>
            by_cases hr : r.success <;>
              simp [Gateway.runLnd, Gateway.finalAttempt, hr, hdb, h3,
                Gateway.chainOk, Gateway.allowedTrans]
          | clientError m =>
            simp [Gateway.runLnd, Gateway.finalAttempt, hdb, h3,
              Gateway.chainOk, Gateway.allowedTrans]
          | otherError m =>
            simp [Gateway.runLnd, Gateway.finalAttempt, hdb, h3,
              Gateway.chainOk, Gateway.allowedTrans]
    | none =>
      have hrun : Gateway.pay_invoice inv key db out =
          Gateway.runLnd (Gateway.stripLightning inv.trim) key none db out := by
        simp [Gateway.pay_invoice, hdb]
      rw [hrun]
      cases out with
      | res r =>
        by_cases hr : r.success <;>
          simp [Gateway.runLnd, Gateway.finalAttempt, hr, hdb,
            Gateway.chainOk, Gateway.allowedTrans]
      | clientError m =>
        simp [Gateway.runLnd, Gateway.finalAttempt, hdb,
          Gateway.chainOk, Gateway.allowedTrans]
      | otherError m =>
        simp [Gateway.runLnd, Gateway.finalAttempt, hdb,
          Gateway.chainOk, Gateway.allowedTrans]
  · intro calls
    induction calls with
    | nil => intro db key a hdb hs; exact hdb ▸ rfl
    | cons c rest ih =>
      intro db key a hdb hs
      have hstep : (Gateway.pay_invoice c.invoice c.key db c.outcome).db key = some a := by
        by_cases hk : key = c.key
        · subst hk
          rw [Gateway.pay_invoice_cached c.invoice c.key db c.outcome a hdb hs]
          exact hdb
        · rw [Gateway.pay_invoice_other_key c.invoice c.key db c.outcome key hk]
          exact hdb
      exact ih _ key a hstep hs

/-- Witness for C3: a database holding a success row, one retrying call. -/
theorem c3_witness :
    ((fun k => if k = "k-12345678" then
        some ({ invoice := "lnbc9", status := .success, preimage := some "cd",
                fee_sat := some 1, error_message := none } : Gateway.PaymentAttempt)
      else none) : Gateway.Db) "k-12345678" =
      some { invoice := "lnbc9", status := .success, preimage := some "cd",
             fee_sat := some 1, error_message := none } ∧
    Gateway.runCalls
      [{ invoice := "lnbc9", key := "k-12345678",
         outcome := .res { success := false, preimage := none, fee_sat := none,
                           error := some "no route" } }]
      (fun k => if k = "k-12345678" then
        some { invoice := "lnbc9", status := .success, preimage := some "cd",
               fee_sat := some 1, error_message := none }
      else none) "k-12345678" =
      some { invoice := "lnbc9", status := .success, preimage := some "cd",
             fee_sat := some 1, error_message := none } :=
  ⟨by simp, c3_success_is_terminal.2.2 _ _ "k-12345678"
    { invoice := "lnbc9", status := .success, preimage := some "cd",
      fee_sat := some 1, error_message := none } (by simp) rfl⟩

/-- Scenario A evaluation: payout 100000 sats, no discounts, base percent 1%,
fee 1000 split 500/200/300. -/
theorem calc_100000_eval :
    Fee.calculate_fee_for_payout 100000 false false none =
      .ok ⟨1000, 500, 200, 300, 1 / 100⟩ := by
  unfold Fee.calculate_fee_for_payout Fee.effectivePercent
  norm_num [Fee.truncQ, Fee.BASE_FEE_PERCENT, Fee.COMMUNITY_FUND_SHARE,
    Fee.PARTNER_CASHOUT_SHARE, Fee.MINIMUM_FEE_SATS]

/-- Counterexample to claim C2: on a transport-level error (`LndClientError`)
the endpoint sets the `PaymentAttempt` to status failed, not pending
(`lightning_enhanced.py` lines 131-135), and `process_payout` sets the cycle
to failed, not ready (`payout.py` lines 245-256). -/
theorem c2_counterexample :
    ((∃ a : Gateway.PaymentAttempt,
        (Gateway.pay_invoice "lnbc1xyz" "key-00000001" (fun _ => none)
          (.clientError "connection reset")).db "key-00000001" = some a ∧
        a.status = .failed ∧ a.status ≠ .pending ∧
        a.error_message = some "connection reset") ∧
      Gateway.PayStatus.failed ≠ Gateway.PayStatus.pending) ∧
    ((Payout.process_payout ⟨100000, .ready, some "lnwin"⟩ true false false
        (.raise "connection reset")).cycle.status = .failed ∧
      Payout.CycleStatus.failed ≠ Payout.CycleStatus.ready) := by
  refine ⟨⟨?_, by decide⟩, ?_, by decide⟩
  · obtain ⟨⟨a, ha, hs, he⟩, -, -⟩ :=
      Gateway.pay_invoice_clientError "lnbc1xyz" "key-00000001" (fun _ => none)
        "connection reset" (Or.inl rfl)
    exact ⟨a, ha, hs, by rw [hs]; decide, he⟩
  · simp [Payout.process_payout, calc_100000_eval]

/-- Claim C2 as amended: a transport-level error (`LndClientError` /
`RetriableError`) marks the `PaymentAttempt` failed with the error recorded
(not pending), answers 502, and `process_payout` marks the cycle failed (not
ready) and re-raises the error to the caller. -/
theorem c2_amended_transport_error_marks_failed :
    (∀ (inv key : String) (db : Gateway.Db) (msg : String),
      (db key = none ∨ ∃ a, db key = some a ∧ a.status = .failed) →
      (∃ a : Gateway.PaymentAttempt,
        (Gateway.pay_invoice inv key db (.clientError msg)).db key = some a ∧
        a.status = .failed ∧ a.error_message = some msg) ∧
      (Gateway.pay_invoice inv key db (.clientError msg)).resp =
        .lndError ("LND error: " ++ msg) ∧
      (Gateway.pay_invoice inv key db (.clientError msg)).contacted = true) ∧
    (∀ (cycle : Payout.TontineCycle) (gv ur : Bool) (msg inv : String)
        (fs : Fee.FeeSplit),
      cycle.status = .ready → cycle.withdraw_invoice = some inv →
      Fee.calculate_fee_for_payout cycle.payout_total_sats gv ur none = .ok fs →
      0 < cycle.payout_total_sats - fs.sats_fee →
      (Payout.process_payout cycle true gv ur (.raise msg)).cycle.status = .failed ∧
      (Payout.process_payout cycle true gv ur (.raise msg)).log = some .failed ∧
      (Payout.process_payout cycle true gv ur (.raise msg)).outcome = .error msg) := by
  constructor
  · exact Gateway.pay_invoice_clientError
  · intro cycle gv ur msg inv fs hready hinv hfs hnet
    have h4 : ¬(cycle.payout_total_sats - fs.sats_fee ≤ 0) := by omega
    simp [Payout.process_payout, hready, hinv, hfs, h4]

/-- Witness for the amended C2: fresh key, transport error; Scenario A cycle. -/
theorem c2_witness :
    (((fun _ => none : Gateway.Db) "key-00000009" = none ∨
      ∃ a, (fun _ => none : Gateway.Db) "key-00000009" = some a ∧
        a.status = .failed) ∧
      (∃ a : Gateway.PaymentAttempt,
        (Gateway.pay_invoice "lnbc1xyz" "key-00000009" (fun _ => none)
          (.clientError "timeout")).db "key-00000009" = some a ∧
        a.status = .failed ∧ a.error_message = some "timeout") ∧
      (Gateway.pay_invoice "lnbc1xyz" "key-00000009" (fun _ => none)
        (.clientError "timeout")).resp = .lndError ("LND error: " ++ "timeout") ∧
      (Gateway.pay_invoice "lnbc1xyz" "key-00000009" (fun _ => none)
        (.clientError "timeout")).contacted = true) ∧
    ((⟨100000, .ready, some "lnwin"⟩ : Payout.TontineCycle).status = .ready ∧
      (Payout.process_payout ⟨100000, .ready, some "lnwin"⟩ true false false
        (.raise "timeout")).cycle.status = .failed ∧
      (Payout.process_payout ⟨100000, .ready, some "lnwin"⟩ true false false
        (.raise "timeout")).log = some .failed ∧
      (Payout.process_payout ⟨100000, .ready, some "lnwin"⟩ true false false
        (.raise "timeout")).outcome = .error "timeout") :=
  ⟨⟨Or.inl rfl,
    c2_amended_transport_error_marks_failed.1 "lnbc1xyz" "key-00000009"
      (fun _ => none) "timeout" (Or.inl rfl)⟩,
   rfl,
   c2_amended_transport_error_marks_failed.2 ⟨100000, .ready, some "lnwin"⟩
     false false "timeout" "lnwin" ⟨1000, 500, 200, 300, 1 / 100⟩ rfl rfl
     calc_100000_eval (by decide)⟩

end SunuSav
